import Mathlib

/-!
Verification of the bounded-concurrency async fetch layer of the
Real-Estate-Scraper repository (`src/async_scraper.py`), as described by its
specification.  Python coroutines are embedded as pure functions: the outcome
of each HTTP attempt is supplied by an oracle, exceptions are `Except.error`
values, machine floats are rationals, and the semaphore is a labelled
transition system.
-/

/-! ## Fetcher: `AsyncBaseScraper.fetch_page` (async_scraper.py lines 72-102)

One loop iteration of `fetch_page` performs: a pre-attempt sleep of
`request_delay * (attempt + 1)` (just `request_delay` for attempt 0), one HTTP
GET, and on status 429 an extra sleep of `request_delay * 5`.  Status 200
returns the body immediately; any other status, a timeout, or an exception
falls through to the next iteration; after `retries` iterations the function
returns `None`.  The oracle maps the attempt index to the outcome of the GET
of that attempt: `ok status body` when a response arrived (body meaningful
only for 200), `timeout` for `asyncio.TimeoutError`, `netError` for any other
exception raised inside the `try` block. -/

inductive AttemptOutcome where
  | ok (status : Nat) (body : String)
  | timeout
  | netError (msg : String)
deriving DecidableEq

/-- Observable events of one `fetch_page` run: sleeps (duration in seconds,
as a rational) and HTTP requests (`some status` if a response arrived,
`none` if the attempt timed out or raised). -/
inductive FetchEvent where
  | sleep (d : ℚ)
  | request (status : Option Nat)
deriving DecidableEq

/-- The retry loop of `fetch_page` (lines 75-102), starting at attempt index
`attempt` with `remaining` loop iterations left.  Returns the result
(`some body` on HTTP 200, `none` when the budget is exhausted) together with
the list of events the run performs, in order. -/
def fetchPageGo (oracle : Nat → AttemptOutcome) (delay : ℚ) :
    Nat → Nat → Option String × List FetchEvent
  | _, 0 => (none, [])
  | attempt, remaining + 1 =>
    let pre : ℚ := if attempt > 0 then delay * ((attempt : ℚ) + 1) else delay
    match oracle attempt with
    | .ok status body =>
      if status = 200 then (some body, [.sleep pre, .request (some status)])
      else if status = 429 then
        let rest := fetchPageGo oracle delay (attempt + 1) remaining
        (rest.1, .sleep pre :: .request (some status) :: .sleep (delay * 5) :: rest.2)
      else
        let rest := fetchPageGo oracle delay (attempt + 1) remaining
        (rest.1, .sleep pre :: .request (some status) :: rest.2)
    | .timeout =>
      let rest := fetchPageGo oracle delay (attempt + 1) remaining
      (rest.1, .sleep pre :: .request none :: rest.2)
    | .netError _ =>
      let rest := fetchPageGo oracle delay (attempt + 1) remaining
      (rest.1, .sleep pre :: .request none :: rest.2)

/-- `fetch_page(url, retries)`: run the retry loop from attempt 0. -/
def fetchPage (oracle : Nat → AttemptOutcome) (delay : ℚ) (retries : Nat) :
    Option String :=
  (fetchPageGo oracle delay 0 retries).1

/-- The event trace of one `fetch_page(url, retries)` call. -/
def fetchPageEvents (oracle : Nat → AttemptOutcome) (delay : ℚ) (retries : Nat) :
    List FetchEvent :=
  (fetchPageGo oracle delay 0 retries).2

/-- Number of HTTP GET attempts in a trace. -/
def countRequests : List FetchEvent → Nat
  | [] => 0
  | .request _ :: rest => countRequests rest + 1
  | .sleep _ :: rest => countRequests rest

/-- An attempt outcome that does not short-circuit the loop with a page:
any non-200 status, a timeout, or an exception. -/
def attemptFails : AttemptOutcome → Bool
  | .ok status _ => status ≠ 200
  | .timeout => true
  | .netError _ => true

/-- Sum of sleep durations up to (excluding) the first request of a trace. -/
def sleepsBeforeRequest : List FetchEvent → ℚ
  | [] => 0
  | .sleep d :: rest => d + sleepsBeforeRequest rest
  | .request _ :: _ => 0

/-- Drop everything up to and including the first request of a trace. -/
def eventsAfterRequest : List FetchEvent → List FetchEvent
  | [] => []
  | .sleep _ :: rest => eventsAfterRequest rest
  | .request _ :: rest => rest

/-- Total sleep time between the first request of a trace and the request
that follows it: the backoff separating an attempt from the next one. -/
def backoffAfterFirstRequest (evs : List FetchEvent) : ℚ :=
  sleepsBeforeRequest (eventsAfterRequest evs)

lemma fetchPageGo_fail_result (oracle : Nat → AttemptOutcome) (delay : ℚ)
    (hf : ∀ i, attemptFails (oracle i) = true) :
    ∀ remaining attempt,
      (fetchPageGo oracle delay attempt remaining).1 = none ∧
      countRequests (fetchPageGo oracle delay attempt remaining).2 = remaining := by
  intro remaining
  induction remaining with
  | zero => intro attempt; simp [fetchPageGo, countRequests]
  | succ n ih =>
    intro attempt
    have h := hf attempt
    unfold fetchPageGo
    rcases ho : oracle attempt with ⟨status, body⟩ | _ | msg
    · have h200 : status ≠ 200 := by
        rw [ho] at h; simpa [attemptFails] using h
      by_cases h429 : status = 429
      · simp only [h200, if_neg, if_pos h429]
        simpa [countRequests] using ih (attempt + 1)
      · simp only [h200, if_neg, if_neg h429]
        simpa [countRequests] using ih (attempt + 1)
    · simpa [countRequests] using ih (attempt + 1)
    · simpa [countRequests] using ih (attempt + 1)

/-- Every run with at least one remaining iteration starts with the
pre-attempt sleep followed by the GET of the starting attempt, so the sleep
time up to the first request is exactly the pre-attempt delay. -/
lemma sleepsBeforeRequest_fetchPageGo (oracle : Nat → AttemptOutcome)
    (delay : ℚ) (attempt remaining : Nat) :
    sleepsBeforeRequest (fetchPageGo oracle delay attempt (remaining + 1)).2 =
      (if attempt > 0 then delay * ((attempt : ℚ) + 1) else delay) := by
  unfold fetchPageGo
  rcases oracle attempt with ⟨status, body⟩ | _ | msg
  · by_cases h200 : status = 200
    · simp [h200, sleepsBeforeRequest]
    · by_cases h429 : status = 429
      · simp [h200, h429, sleepsBeforeRequest]
      · simp [h200, h429, sleepsBeforeRequest]
  · simp [sleepsBeforeRequest]
  · simp [sleepsBeforeRequest]

/-- A failing attempt outcome that is not a 429: a response with a status
other than 200 and 429, a timeout, or an exception. -/
def plainFailure : AttemptOutcome → Bool
  | .ok status _ => status ≠ 200 && status ≠ 429
  | .timeout => true
  | .netError _ => true

/-- C3: a `fetch_page` call with `retries = r ≥ 1` whose every attempt fails
(non-200 status, timeout, or exception) performs exactly `r` GET attempts and
returns `none`; no failure mode escapes as an exception (the embedding of the
`try`/`except` body is total, every outcome resolving to an `Option`). -/
theorem fetchPage_exhausts_retries (oracle : Nat → AttemptOutcome) (delay : ℚ)
    (r : Nat) (_hr : 1 ≤ r) (hf : ∀ i, attemptFails (oracle i) = true) :
    fetchPage oracle delay r = none ∧
      countRequests (fetchPageEvents oracle delay r) = r :=
  fetchPageGo_fail_result oracle delay hf r 0

theorem fetchPage_exhausts_retries_witness :
    fetchPage (fun _ => .timeout) 1 3 = none ∧
      countRequests (fetchPageEvents (fun _ => .timeout) 1 3) = 3 :=
  fetchPage_exhausts_retries (fun _ => .timeout) 1 3 (by decide) (fun _ => rfl)

/-- C7: when an attempt receives HTTP 429, `fetch_page` sleeps the extra
`delay * 5` penalty, so the total sleep between that attempt's GET and the
next attempt's GET is strictly longer than after any plain (non-429) failure
of the same attempt; and a 429 attempt still counts against the retry budget:
an always-429 oracle performs exactly `r` attempts and then yields `none`. -/
theorem rateLimited_backoff_longer (oracle oracle2 : Nat → AttemptOutcome)
    (delay : ℚ) (hd : 0 < delay) (a rem : Nat) (hrem : 2 ≤ rem)
    (h429 : ∃ b, oracle a = .ok 429 b)
    (hplain : plainFailure (oracle2 a) = true) :
    backoffAfterFirstRequest (fetchPageGo oracle delay a rem).2 >
      backoffAfterFirstRequest (fetchPageGo oracle2 delay a rem).2 ∧
    (∀ r, (∀ i, ∃ b, oracle i = .ok 429 b) →
      fetchPage oracle delay r = none ∧
        countRequests (fetchPageEvents oracle delay r) = r) := by
  constructor
  · obtain ⟨k, hk⟩ := Nat.exists_eq_add_of_le' hrem
    subst hk
    obtain ⟨b, hb⟩ := h429
    have hnext :
        sleepsBeforeRequest (fetchPageGo oracle delay (a + 1) (k + 1)).2 =
          delay * ((a : ℚ) + 1 + 1) := by
      rw [sleepsBeforeRequest_fetchPageGo]
      have : ((a : Nat) + 1 > 0) := Nat.succ_pos a
      simp only [this, if_pos]
      push_cast
      ring
    have hnext2 :
        sleepsBeforeRequest (fetchPageGo oracle2 delay (a + 1) (k + 1)).2 =
          delay * ((a : ℚ) + 1 + 1) := by
      rw [sleepsBeforeRequest_fetchPageGo]
      have : ((a : Nat) + 1 > 0) := Nat.succ_pos a
      simp only [this, if_pos]
      push_cast
      ring
    have hL :
        backoffAfterFirstRequest (fetchPageGo oracle delay a (k + 2)).2 =
          delay * 5 + delay * ((a : ℚ) + 1 + 1) := by
      unfold fetchPageGo
      rw [hb]
      simp only [backoffAfterFirstRequest, eventsAfterRequest, sleepsBeforeRequest,
        show ¬((429 : Nat) = 200) by decide, if_neg, if_pos rfl, hnext]
    have hR :
        backoffAfterFirstRequest (fetchPageGo oracle2 delay a (k + 2)).2 =
          delay * ((a : ℚ) + 1 + 1) := by
      unfold fetchPageGo
      rcases ho : oracle2 a with ⟨status, body⟩ | _ | msg
      · rw [ho] at hplain
        have h200 : status ≠ 200 := by
          by_contra h; rw [h] at hplain; simp [plainFailure] at hplain
        have h429b : status ≠ 429 := by
          by_contra h; rw [h] at hplain; simp [plainFailure] at hplain
        simp only [h200, if_neg, h429b, backoffAfterFirstRequest,
          eventsAfterRequest, sleepsBeforeRequest, hnext2]
      · simp only [backoffAfterFirstRequest, eventsAfterRequest,
          sleepsBeforeRequest, hnext2]
      · simp only [backoffAfterFirstRequest, eventsAfterRequest,
          sleepsBeforeRequest, hnext2]
    rw [hL, hR]
    have h5 : 0 < delay * 5 := by linarith
    linarith
  · intro r hall
    refine fetchPageGo_fail_result oracle delay (fun i => ?_) r 0
    obtain ⟨b, hb⟩ := hall i
    rw [hb]
    rfl

theorem rateLimited_backoff_longer_witness :
    backoffAfterFirstRequest
        (fetchPageGo (fun _ => .ok 429 "") 1 0 2).2 >
      backoffAfterFirstRequest
        (fetchPageGo (fun _ => .ok 500 "") 1 0 2).2 ∧
    fetchPage (fun _ => .ok 429 "") 1 3 = none ∧
      countRequests (fetchPageEvents (fun _ => .ok 429 "") 1 3) = 3 := by
  have h := rateLimited_backoff_longer (fun _ => .ok 429 "")
    (fun _ => .ok 500 "") 1 (by norm_num) 0 2 (by decide)
    ⟨"", rfl⟩ (by decide)
  exact ⟨h.1, h.2 3 (fun _ => ⟨"", rfl⟩)⟩



/-! ## RateGate: `asyncio.Semaphore(max_concurrent)` (lines 18-22, 74)

`fetch_page` wraps its whole retry loop in `async with self.semaphore`, so a
task acquires a slot, performs its attempts while holding it, and releases it
when the loop exits.  We model the batch as a labelled transition system: each
task is `waiting` (before `acquire`), `holding r` (inside the `async with`
block with `r` loop iterations still to run), or `done` (after `release`);
the gate state carries the semaphore's free-slot counter. -/

inductive TaskPhase where
  | waiting
  | holding (remaining : Nat)
  | done
deriving DecidableEq

structure GateState where
  avail : Nat
  tasks : List TaskPhase
deriving DecidableEq

/-- Number of tasks currently between `acquire()` and `release()`. -/
def countHolding (ts : List TaskPhase) : Nat :=
  ts.countP fun t => match t with | .holding _ => true | _ => false

/-- One event-loop step of a batch whose every fetch runs `retries` loop
iterations: a waiting task may acquire a free slot (decrementing the
counter), a holding task performs one retry-loop iteration, and a task whose
loop is finished releases its slot (incrementing the counter).  `acquire`
requires `0 < avail`: with no free slot a waiting task has no enabled
transition, i.e. it blocks. -/
inductive GateStep (retries : Nat) : GateState → GateState → Prop
  | acquire (s : GateState) (i : Nat)
      (h : s.tasks.get? i = some .waiting) (ha : 0 < s.avail) :
      GateStep retries s ⟨s.avail - 1, s.tasks.set i (.holding retries)⟩
  | work (s : GateState) (i r : Nat)
      (h : s.tasks.get? i = some (.holding (r + 1))) :
      GateStep retries s ⟨s.avail, s.tasks.set i (.holding r)⟩
  | release (s : GateState) (i : Nat)
      (h : s.tasks.get? i = some (.holding 0)) :
      GateStep retries s ⟨s.avail + 1, s.tasks.set i .done⟩

/-- Start of a batch: `k` free slots (`Semaphore(max_concurrent)`) and `n`
submitted fetch tasks, none yet admitted. -/
def gateInit (k n : Nat) : GateState :=
  ⟨k, List.replicate n .waiting⟩

/-- States a batch can reach from its start by event-loop steps. -/
def GateReachable (retries k n : Nat) (s : GateState) : Prop :=
  Relation.ReflTransGen (GateStep retries) (gateInit k n) s

lemma countP_set_of_get? (p : TaskPhase → Bool) (l : List TaskPhase)
    (i : Nat) (a b : TaskPhase) (h : l.get? i = some a) :
    (l.set i b).countP p + (if p a then 1 else 0) =
      l.countP p + (if p b then 1 else 0) := by
  induction l generalizing i with
  | nil => simp at h
  | cons hd tl ih =>
    cases i with
    | zero =>
      simp only [List.get?] at h
      injection h with h
      subst h
      simp [List.countP_cons]
      omega
    | succ j =>
      simp only [List.get?] at h
      have := ih j h
      simp [List.countP_cons]
      omega

/-- The semaphore invariant: free slots plus holders always equals `k`. -/
lemma gate_invariant (retries k n : Nat) (s : GateState)
    (hs : GateReachable retries k n s) :
    s.avail + countHolding s.tasks = k := by
  induction hs with
  | refl =>
    have h0 : countHolding (gateInit k n).tasks = 0 := by
      simp only [countHolding, gateInit]
      refine List.countP_eq_zero.2 ?_
      intro t ht
      have h2 := List.eq_of_mem_replicate ht
      subst h2
      simp
    simp [gateInit] at h0 ⊢
    omega
  | tail _hsteps hstep ih =>
    cases hstep with
    | acquire i h ha =>
      have hc := countP_set_of_get?
        (fun t => match t with | .holding _ => true | _ => false)
        _ i .waiting (.holding retries) h
      simp only [countHolding] at ih ⊢
      simp at hc
      omega
    | work i r h =>
      have hc := countP_set_of_get?
        (fun t => match t with | .holding _ => true | _ => false)
        _ i (.holding (r + 1)) (.holding r) h
      simp only [countHolding] at ih ⊢
      simp at hc
      omega
    | release i h =>
      have hc := countP_set_of_get?
        (fun t => match t with | .holding _ => true | _ => false)
        _ i (.holding 0) .done h
      simp only [countHolding] at ih ⊢
      simp at hc
      omega

/-- C2: in every state a batch can reach, at most `k = max_concurrent` fetch
operations are simultaneously between `acquire()` and `release()`; when
exactly `k` hold slots the counter is zero, so no waiting task can take the
`acquire` transition (callers in excess of `k` block until a slot frees); and
a task only reaches `done` (releasing its slot) from `holding 0`, i.e. after
its whole retry loop — the slot is held for the entire loop. -/
theorem gate_concurrency_bound (retries k n : Nat) (s : GateState)
    (hs : GateReachable retries k n s) :
    countHolding s.tasks ≤ k ∧
    (countHolding s.tasks = k → s.avail = 0) ∧
    (∀ s2, GateStep retries s s2 →
      ∀ i, s2.tasks.get? i = some .done →
        s.tasks.get? i = some .done ∨ s.tasks.get? i = some (.holding 0)) := by
  have hinv := gate_invariant retries k n s hs
  refine ⟨by omega, fun h => by omega, ?_⟩
  intro s2 hstep i hdone
  cases hstep with
  | acquire j h ha =>
    by_cases hij : j = i
    · subst hij
      rw [List.get?_set_eq_of_lt _ (List.get?_eq_some.1 h).1] at hdone
      simp at hdone
    · rw [List.get?_set_ne _ _ hij] at hdone
      exact Or.inl hdone
  | work j r h =>
    by_cases hij : j = i
    · subst hij
      rw [List.get?_set_eq_of_lt _ (List.get?_eq_some.1 h).1] at hdone
      simp at hdone
    · rw [List.get?_set_ne _ _ hij] at hdone
      exact Or.inl hdone
  | release j h =>
    by_cases hij : j = i
    · subst hij
      exact Or.inr h
    · rw [List.get?_set_ne _ _ hij] at hdone
      exact Or.inl hdone

theorem gate_concurrency_bound_witness :
    countHolding (gateInit 2 3).tasks ≤ 2 ∧
    (countHolding (gateInit 2 3).tasks = 2 → (gateInit 2 3).avail = 0) ∧
    (∀ s2, GateStep 3 (gateInit 2 3) s2 →
      ∀ i, s2.tasks.get? i = some .done →
        (gateInit 2 3).tasks.get? i = some .done ∨
          (gateInit 2 3).tasks.get? i = some (.holding 0)) :=
  gate_concurrency_bound 3 2 3 (gateInit 2 3) Relation.ReflTransGen.refl

/-! ## BatchFetcher: `AsyncBaseScraper.fetch_multiple_pages` (lines 104-130)

`fetch_multiple_pages` builds one `fetch_page` task per URL, runs them with
`asyncio.gather(*tasks, return_exceptions=True)` (whose result list is
aligned with the task list), and then converts each gathered entry: an
`Exception` instance becomes `None`, a non-`None` string is kept, `None`
stays `None`.  The per-URL behaviour is abstracted as a function from the URL
to the gathered entry: `Except.error` for a task that raised, `Except.ok`
for a task that returned. -/

/-- The result-processing loop of lines 117-127, applied to one entry. -/
def gatherEntryToPage : Except String (Option String) → Option String
  | .error _ => none
  | .ok v => v

/-- `fetch_multiple_pages(urls)`: gather one fetch task per URL (order
preserved by `asyncio.gather`), then convert each entry. -/
def fetchMultiplePages (fetchUrl : String → Except String (Option String))
    (urls : List String) : List (Option String) :=
  (urls.map fetchUrl).map gatherEntryToPage

/-- C1: for `N` input URLs, `fetch_multiple_pages` returns exactly `N`
entries; entry `i` is a function of URL `i`'s own fetch alone (so whatever
other positions do cannot affect it); and a fetch that raised an exception
becomes a `none` entry at its position. -/
theorem batch_preserves_positions
    (fetchUrl : String → Except String (Option String)) (urls : List String) :
    (fetchMultiplePages fetchUrl urls).length = urls.length ∧
    (∀ i url, urls.get? i = some url →
      (fetchMultiplePages fetchUrl urls).get? i =
        some (gatherEntryToPage (fetchUrl url))) ∧
    (∀ e, gatherEntryToPage (.error e) = none) := by
  refine ⟨by simp [fetchMultiplePages], ?_, fun e => rfl⟩
  intro i url hu
  simp only [fetchMultiplePages, List.get?_map, hu]
  rfl

theorem batch_preserves_positions_witness :
    (fetchMultiplePages
        (fun u => if u = "b" then .error "boom" else .ok (some u))
        ["a", "b", "c"]).length = 3 ∧
    (fetchMultiplePages
        (fun u => if u = "b" then .error "boom" else .ok (some u))
        ["a", "b", "c"]).get? 1 =
      some (gatherEntryToPage
        ((fun u => if u = "b" then .error "boom" else .ok (some u)) "b")) ∧
    gatherEntryToPage
        (Except.error "boom" : Except String (Option String)) =
      none := by
  have h := batch_preserves_positions
    (fun u => if u = "b" then .error "boom" else .ok (some u)) ["a", "b", "c"]
  exact ⟨h.1, h.2.1 1 "b" rfl, h.2.2 "boom"⟩

/-! ## Data model: `Property` and `SearchCriteria` (models.py lines 8-97)

Only the fields the fetch-and-orchestrate core reads are embedded; optional
Python fields are `Option`s, floats are rationals.  Python truthiness is made
explicit: `None`, `0`, `0.0`, `""` and `[]` are falsy. -/

structure Property where
  id : Option String := none
  title : Option String := none
  price : Option ℚ := none
  address : Option String := none
  bedrooms : Option ℤ := none
  bathrooms : Option ℚ := none
  squareFeet : Option ℚ := none
  propertyType : Option String := none
  sourceUrl : Option String := none
  sourceWebsite : Option String := none
deriving DecidableEq

structure SearchCriteria where
  location : String := ""
  minPrice : Option ℚ := none
  maxPrice : Option ℚ := none
  minBedrooms : Option ℤ := none
  maxBedrooms : Option ℤ := none
  minBathrooms : Option ℚ := none
  maxBathrooms : Option ℚ := none
  propertyTypes : List String := []
  maxPages : Option ℤ := none
deriving DecidableEq

/-- Python truthiness of an `Optional[float]`: `None` and `0.0` are falsy. -/
def qTruthy : Option ℚ → Bool
  | none => false
  | some v => v ≠ 0

/-- Python truthiness of an `Optional[int]`: `None` and `0` are falsy. -/
def zTruthy : Option ℤ → Bool
  | none => false
  | some v => v ≠ 0

/-- Python `str.lower()` restricted to ASCII, which covers the property
types and whitelists this repository uses. -/
def strLower (s : String) : String := String.mk (s.data.map Char.toLower)

/-- Python truthiness of an `Optional[str]`: `None` and `""` are falsy. -/
def sTruthy : Option String → Bool
  | none => false
  | some v => v ≠ ""

/-! ## Post-filter: `AsyncPropertyScraper.filter_properties` (lines 216-241)

Each `continue` condition of the loop is one skip predicate; a property is
kept when no condition fires. -/

/-- Line 222: `criteria.min_price and prop.price and prop.price < criteria.min_price`. -/
def skipMinPrice (c : SearchCriteria) (p : Property) : Bool :=
  qTruthy c.minPrice && qTruthy p.price &&
    decide (p.price.getD 0 < c.minPrice.getD 0)

/-- Line 224: `criteria.max_price and prop.price and prop.price > criteria.max_price`. -/
def skipMaxPrice (c : SearchCriteria) (p : Property) : Bool :=
  qTruthy c.maxPrice && qTruthy p.price &&
    decide (p.price.getD 0 > c.maxPrice.getD 0)

/-- Line 228: `criteria.min_bedrooms and prop.bedrooms and prop.bedrooms < criteria.min_bedrooms`. -/
def skipMinBedrooms (c : SearchCriteria) (p : Property) : Bool :=
  zTruthy c.minBedrooms && zTruthy p.bedrooms &&
    decide (p.bedrooms.getD 0 < c.minBedrooms.getD 0)

/-- Line 230: `criteria.max_bedrooms and prop.bedrooms and prop.bedrooms > criteria.max_bedrooms`. -/
def skipMaxBedrooms (c : SearchCriteria) (p : Property) : Bool :=
  zTruthy c.maxBedrooms && zTruthy p.bedrooms &&
    decide (p.bedrooms.getD 0 > c.maxBedrooms.getD 0)

/-- Lines 234-236: with a non-empty whitelist and a truthy type, skip when
the lower-cased type is not in the lower-cased whitelist. -/
def skipPropertyType (c : SearchCriteria) (p : Property) : Bool :=
  !(c.propertyTypes.isEmpty) && sTruthy p.propertyType &&
    !((c.propertyTypes.map strLower).contains
      (strLower (p.propertyType.getD "")))

/-- A property survives the loop body iff no `continue` fires. -/
def keepProperty (c : SearchCriteria) (p : Property) : Bool :=
  !skipMinPrice c p && !skipMaxPrice c p && !skipMinBedrooms c p &&
    !skipMaxBedrooms c p && !skipPropertyType c p

/-- `filter_properties(properties, criteria)`. -/
def filterProperties (properties : List Property) (c : SearchCriteria) :
    List Property :=
  properties.filter (keepProperty c)

/-- The end-to-end criteria of the spec's audit scenario. -/
def auditCriteria : SearchCriteria :=
  { location := "Austin, TX", minPrice := some 300000,
    maxPrice := some 700000, minBedrooms := some 2,
    propertyTypes := ["house"] }

/-- C8: on records whose price, bedrooms and property type are all present
and non-zero, `filter_properties` with the audit criteria keeps exactly the
records with price in `[300000, 700000]`, at least 2 bedrooms and type
`"house"` up to case; both sides filter the same list, so input order is
preserved. -/
theorem filter_matches_criteria (props : List Property)
    (hp : ∀ p ∈ props, qTruthy p.price = true ∧ zTruthy p.bedrooms = true ∧
      sTruthy p.propertyType = true) :
    filterProperties props auditCriteria = props.filter (fun p =>
      decide ((300000 : ℚ) ≤ p.price.getD 0) &&
      decide (p.price.getD 0 ≤ 700000) &&
      decide ((2 : ℤ) ≤ p.bedrooms.getD 0) &&
      (strLower (p.propertyType.getD "") == "house")) := by
  refine List.filter_congr ?_
  intro p hmem
  obtain ⟨hq, hz, hs⟩ := hp p hmem
  obtain ⟨pid, ptitle, pprice, paddr, pbed, pbath, psq, ptype, psrc, pweb⟩ := p
  rcases pprice with _ | v
  · simp [qTruthy] at hq
  rcases pbed with _ | b
  · simp [zTruthy] at hz
  rcases ptype with _ | t
  · simp [sTruthy] at hs
  simp only [keepProperty, skipMinPrice, skipMaxPrice, skipMinBedrooms,
    skipMaxBedrooms, skipPropertyType, auditCriteria, qTruthy, zTruthy,
    sTruthy, Option.getD_some, List.isEmpty_cons, List.map_cons, List.map_nil,
    List.contains_cons, List.contains_nil]
  simp only [qTruthy] at hq
  simp only [zTruthy] at hz
  simp only [sTruthy] at hs
  have hH : strLower "house" = "house" := by decide
  by_cases h1 : v < 300000 <;> by_cases h2 : v > 700000 <;>
    by_cases h3 : b < 2 <;> by_cases h4 : strLower t = "house" <;>
    simp [h1, h2, h3, h4, hq, hz, hs, hH, not_lt, beq_iff_eq] <;>
    refine ⟨⟨by linarith, by linarith⟩, by omega⟩

theorem filter_matches_criteria_witness :
    filterProperties
        ([{ price := some 400000, bedrooms := some 3,
            propertyType := some "House" },
          { price := some 200000, bedrooms := some 3,
            propertyType := some "house" }] : List Property)
        auditCriteria =
      List.filter (fun p =>
        decide ((300000 : ℚ) ≤ p.price.getD 0) &&
        decide (p.price.getD 0 ≤ 700000) &&
        decide ((2 : ℤ) ≤ p.bedrooms.getD 0) &&
        (strLower (p.propertyType.getD "") == "house"))
        ([{ price := some 400000, bedrooms := some 3,
            propertyType := some "House" },
          { price := some 200000, bedrooms := some 3,
            propertyType := some "house" }] : List Property) :=
  filter_matches_criteria
    ([{ price := some 400000, bedrooms := some 3,
        propertyType := some "House" },
      { price := some 200000, bedrooms := some 3,
        propertyType := some "house" }] : List Property)
    (by decide)

/-- C10: each `continue` check of `filter_properties` is skipped when either
side is falsy — a falsy record field passes the corresponding checks
whatever the criteria bounds are, a falsy criteria bound constrains no
record at all, and a record whose price, bedrooms and property type are all
falsy fires no check, so it always survives the filter. -/
theorem filter_falsy_skips (c : SearchCriteria) (p : Property) :
    (qTruthy p.price = false →
      skipMinPrice c p = false ∧ skipMaxPrice c p = false) ∧
    (zTruthy p.bedrooms = false →
      skipMinBedrooms c p = false ∧ skipMaxBedrooms c p = false) ∧
    (sTruthy p.propertyType = false → skipPropertyType c p = false) ∧
    (qTruthy c.minPrice = false → skipMinPrice c p = false) ∧
    (qTruthy c.maxPrice = false → skipMaxPrice c p = false) ∧
    (zTruthy c.minBedrooms = false → skipMinBedrooms c p = false) ∧
    (zTruthy c.maxBedrooms = false → skipMaxBedrooms c p = false) ∧
    (c.propertyTypes.isEmpty = true → skipPropertyType c p = false) ∧
    (qTruthy p.price = false → zTruthy p.bedrooms = false →
      sTruthy p.propertyType = false →
      keepProperty c p = true ∧
        ∀ props, p ∈ props → p ∈ filterProperties props c) := by
  refine ⟨fun h => ?_, fun h => ?_, fun h => ?_, fun h => ?_, fun h => ?_,
    fun h => ?_, fun h => ?_, fun h => ?_, fun h1 h2 h3 => ?_⟩
  · simp [skipMinPrice, skipMaxPrice, h]
  · simp [skipMinBedrooms, skipMaxBedrooms, h]
  · simp [skipPropertyType, h]
  · simp [skipMinPrice, h]
  · simp [skipMaxPrice, h]
  · simp [skipMinBedrooms, h]
  · simp [skipMaxBedrooms, h]
  · simp [skipPropertyType, h]
  · have hkeep : keepProperty c p = true := by
      simp [keepProperty, skipMinPrice, skipMaxPrice, skipMinBedrooms,
        skipMaxBedrooms, skipPropertyType, h1, h2, h3]
    exact ⟨hkeep, fun props hmem =>
      List.mem_filter.2 ⟨hmem, hkeep⟩⟩

theorem filter_falsy_skips_witness :
    skipMinPrice auditCriteria ({} : Property) = false ∧
    skipMaxPrice auditCriteria ({} : Property) = false ∧
    keepProperty auditCriteria ({} : Property) = true ∧
    ({} : Property) ∈ filterProperties [({} : Property)] auditCriteria := by
  have h := filter_falsy_skips auditCriteria ({} : Property)
  have h1 := h.1 (by decide)
  have h9 := h.2.2.2.2.2.2.2.2 (by decide) (by decide) (by decide)
  exact ⟨h1.1, h1.2, h9.1, h9.2 [({} : Property)] (by decide)⟩

/-! ## PropertyScraper: `scrape_property_urls` (lines 140-169)

The loop zips URLs with fetched pages.  A falsy page body (`None` or `""`)
appends the URL to `failed_urls`.  For a truthy body the guarded call
`parse_property_page` either raises (embedded as `Except.error`, line 161:
URL appended to `failed_urls`), returns no record (`.ok none`: the loop body
does nothing), or returns a record, which is kept iff the injected validator
accepts it (a rejected record is only logged, line 159).  `parse` and
`validate` are the injected collaborators of the spec. -/

/-- One iteration of the loop at lines 149-165, threading the accumulated
`(properties, failed_urls)` pair. -/
def scrapeStep (parse : String → String → Except String (Option Property))
    (validate : Property → Bool × List String)
    (acc : List Property × List String) :
    String × Option String → List Property × List String
  | (url, none) => (acc.1, acc.2 ++ [url])
  | (url, some content) =>
    if content = "" then (acc.1, acc.2 ++ [url])
    else
      match parse url content with
      | .error _ => (acc.1, acc.2 ++ [url])
      | .ok none => acc
      | .ok (some p) =>
        if (validate p).1 then (acc.1 ++ [p], acc.2) else acc

/-- `scrape_property_urls(urls)` given the pages `fetch_multiple_pages`
returned: the `(properties, failed_urls)` the loop accumulates. -/
def scrapePropertyUrls (parse : String → String → Except String (Option Property))
    (validate : Property → Bool × List String)
    (urls : List String) (pages : List (Option String)) :
    List Property × List String :=
  (urls.zip pages).foldl (scrapeStep parse validate) ([], [])

/-- The records the loop keeps: parsed and accepted by the validator. -/
def scrapedRecords (parse : String → String → Except String (Option Property))
    (validate : Property → Bool × List String) :
    List (String × Option String) → List Property :=
  List.filterMap fun item =>
    match item with
    | (_, none) => none
    | (url, some content) =>
      if content = "" then none
      else
        match parse url content with
        | .error _ => none
        | .ok none => none
        | .ok (some p) => if (validate p).1 then some p else none

/-- The URLs the loop appends to `failed_urls`: falsy page body or raising
parse — and nothing else. -/
def fetchOrParseFailedUrls
    (parse : String → String → Except String (Option Property)) :
    List (String × Option String) → List String :=
  List.filterMap fun item =>
    match item with
    | (url, none) => some url
    | (url, some content) =>
      if content = "" then some url
      else
        match parse url content with
        | .error _ => some url
        | .ok _ => none

lemma foldl_scrapeStep (parse : String → String → Except String (Option Property))
    (validate : Property → Bool × List String) :
    ∀ (l : List (String × Option String)) (acc : List Property × List String),
      l.foldl (scrapeStep parse validate) acc =
        (acc.1 ++ scrapedRecords parse validate l,
         acc.2 ++ fetchOrParseFailedUrls parse l) := by
  intro l
  induction l with
  | nil =>
    intro acc
    simp [scrapedRecords, fetchOrParseFailedUrls]
  | cons hd tl ih =>
    intro acc
    rcases hd with ⟨url, pg⟩
    rcases pg with _ | content
    · simp [List.foldl_cons, scrapeStep, scrapedRecords,
        fetchOrParseFailedUrls, List.filterMap_cons, ih]
    · by_cases hc : content = ""
      · simp [List.foldl_cons, scrapeStep, scrapedRecords,
          fetchOrParseFailedUrls, List.filterMap_cons, hc, ih]
      · rcases hp : parse url content with e | op
        · simp [List.foldl_cons, scrapeStep, scrapedRecords,
            fetchOrParseFailedUrls, List.filterMap_cons, hc, hp, ih]
        · rcases op with _ | q
          · simp [List.foldl_cons, scrapeStep, scrapedRecords,
              fetchOrParseFailedUrls, List.filterMap_cons, hc, hp, ih]
          · by_cases hv : (validate q).1 = true
            · simp [List.foldl_cons, scrapeStep, scrapedRecords,
                fetchOrParseFailedUrls, List.filterMap_cons, hc, hp, hv, ih]
            · simp only [Bool.not_eq_true] at hv
              simp [List.foldl_cons, scrapeStep, scrapedRecords,
                fetchOrParseFailedUrls, List.filterMap_cons, hc, hp, hv, ih]

/-- C6 counterexample: a page that fetches with a non-empty body and parses
to a record that the validator rejects leaves `failed_urls` empty — the URL
of a validation failure is NOT accumulated, contrary to the claim. -/
theorem scrape_validation_not_in_failed :
    (scrapePropertyUrls
        (fun _ _ => .ok (some ({ title := some "T" } : Property)))
        (fun _ => (false, ["invalid"]))
        ["u1"] [some "page"]).2 = [] ∧
    ¬ ("u1" ∈ (scrapePropertyUrls
        (fun _ _ => .ok (some ({ title := some "T" } : Property)))
        (fun _ => (false, ["invalid"]))
        ["u1"] [some "page"]).2) := by
  constructor
  · rfl
  · intro h
    simp [scrapePropertyUrls, scrapeStep] at h

/-- C6 amended: after `scrape_property_urls`, `failed_urls` holds exactly
the URLs whose fetch failed (falsy body) or whose parse raised; a parse
returning no record or a record rejected by the validator leaves
`failed_urls` unchanged; and only records that pass validation appear in
the returned record list. -/
theorem scrape_accumulates
    (parse : String → String → Except String (Option Property))
    (validate : Property → Bool × List String)
    (urls : List String) (pages : List (Option String)) :
    scrapePropertyUrls parse validate urls pages =
      (scrapedRecords parse validate (urls.zip pages),
       fetchOrParseFailedUrls parse (urls.zip pages)) ∧
    ∀ p, p ∈ (scrapePropertyUrls parse validate urls pages).1 →
      (validate p).1 = true := by
  have heq := foldl_scrapeStep parse validate (urls.zip pages) ([], [])
  simp only [List.nil_append] at heq
  refine ⟨heq, ?_⟩
  intro p hp
  rw [scrapePropertyUrls, heq] at hp
  obtain ⟨item, hitem, hf⟩ := List.mem_filterMap.1 hp
  rcases item with ⟨url, pg⟩
  rcases pg with _ | c
  · simp at hf
  · by_cases hc : c = ""
    · simp [hc] at hf
    · rcases hq : parse url c with e | op
      · simp [hc, hq] at hf
      · rcases op with _ | q
        · simp [hc, hq] at hf
        · by_cases hv : (validate q).1 = true
          · simp [hc, hq, hv] at hf
            subst hf
            exact hv
          · simp only [Bool.not_eq_true] at hv
            simp [hc, hq, hv] at hf

theorem scrape_accumulates_witness :
    scrapePropertyUrls
        (fun u _ => .ok (some ({ title := some u } : Property)))
        (fun _ => (true, []))
        ["u", "v"] [some "x", none] =
      (scrapedRecords
        (fun u _ => .ok (some ({ title := some u } : Property)))
        (fun _ => (true, []))
        (List.zip ["u", "v"] [some "x", none]),
       fetchOrParseFailedUrls
        (fun u _ => .ok (some ({ title := some u } : Property)))
        (List.zip ["u", "v"] [some "x", none])) ∧
    ((fun (_ : Property) => (true, ([] : List String)))
        ({ title := some "u" } : Property)).1 = true := by
  have h := scrape_accumulates
    (fun u _ => .ok (some ({ title := some u } : Property)))
    (fun _ => (true, []))
    ["u", "v"] [some "x", none]
  exact ⟨h.1, h.2 ({ title := some "u" } : Property) (by decide)⟩

/-! ## Stats: `AsyncPropertyScraper.get_scraping_stats` (lines 243-251)

`success_rate` is `len(scraped) / max(len(scraped) + len(failed), 1) * 100`,
the `max(..., 1)` guarding the empty denominator. -/

structure ScrapingStats where
  totalPropertiesScraped : Nat
  failedUrls : Nat
  successRate : ℚ
  maxConcurrent : Nat
  requestDelay : ℚ
deriving DecidableEq

/-- The `success_rate` expression of line 248. -/
def successRateOf (succeeded failed : Nat) : ℚ :=
  (succeeded : ℚ) / ((max (succeeded + failed) 1 : Nat) : ℚ) * 100

/-- `get_scraping_stats()`, over the session's accumulated lists. -/
def getScrapingStats (scraped : List Property) (failedUrls : List String)
    (maxConcurrent : Nat) (requestDelay : ℚ) : ScrapingStats :=
  { totalPropertiesScraped := scraped.length,
    failedUrls := failedUrls.length,
    successRate := successRateOf scraped.length failedUrls.length,
    maxConcurrent := maxConcurrent,
    requestDelay := requestDelay }

/-- C5: with at least one outcome the success rate is
`succeeded / (succeeded + failed) * 100` (so 7 successes and 3 failures give
exactly 70), and with no outcomes at all it is 0 — the `max(..., 1)` guard
divides by 1 instead of raising. -/
theorem stats_success_rate (scraped : List Property)
    (failedUrls : List String) (k : Nat) (d : ℚ) :
    (1 ≤ scraped.length + failedUrls.length →
      (getScrapingStats scraped failedUrls k d).successRate =
        (scraped.length : ℚ) /
          ((scraped.length + failedUrls.length : Nat) : ℚ) * 100) ∧
    (scraped.length = 7 → failedUrls.length = 3 →
      (getScrapingStats scraped failedUrls k d).successRate = 70) ∧
    (scraped.length = 0 → failedUrls.length = 0 →
      (getScrapingStats scraped failedUrls k d).successRate = 0) := by
  refine ⟨fun h => ?_, fun h7 h3 => ?_, fun h0 h0f => ?_⟩
  · simp only [getScrapingStats, successRateOf, Nat.max_eq_left h]
  · simp only [getScrapingStats, successRateOf, h7, h3]
    norm_num
  · simp only [getScrapingStats, successRateOf, h0, h0f]
    norm_num

theorem stats_success_rate_witness :
    (getScrapingStats (List.replicate 7 ({} : Property))
        (List.replicate 3 "u") 5 2).successRate = 70 ∧
    (getScrapingStats ([] : List Property) ([] : List String) 5 2).successRate
      = 0 ∧
    (getScrapingStats (List.replicate 7 ({} : Property))
        (List.replicate 3 "u") 5 2).successRate =
      ((List.replicate 7 ({} : Property)).length : ℚ) /
        (((List.replicate 7 ({} : Property)).length +
          (List.replicate 3 "u").length : Nat) : ℚ) * 100 := by
  have h1 := stats_success_rate (List.replicate 7 ({} : Property))
    (List.replicate 3 "u") 5 2
  have h2 := stats_success_rate ([] : List Property) ([] : List String) 5 2
  exact ⟨h1.2.1 (by simp) (by simp), h2.2.2 (by simp) (by simp),
    h1.1 (by simp)⟩

/-! ## JobManager: `AsyncScrapingManager` (lines 253-346)

`run_scraping_job` wraps its whole body in `try`/`except Exception`: a
normal run builds a `status='completed'` result with the scraped
properties, any exception builds a `status='failed'` result carrying
`str(e)`, and either way the result is returned, never re-raised.  The
body's behaviour is abstracted as an `Except`: `.ok props` for a run that
produced `props`, `.error msg` for a run that raised `msg`.
`run_multiple_jobs` gathers one `run_scraping_job` task per job with
`return_exceptions=True` (order aligned with the input list) and converts
any exceptional entry — a branch that is dead because `run_scraping_job`
catches everything — into a `status='failed'` entry. -/

structure JobResult where
  jobId : String
  status : String
  properties : List Property
  propertyCount : Nat
  error : Option String
deriving DecidableEq

/-- `run_scraping_job(job_id, ...)` (lines 261-314).  The `'failed'` dict of
lines 301-307 has no properties key; it is embedded with an empty record
list.  Durations and timestamps (wall-clock reads) are omitted. -/
def runScrapingJob (jobId : String) (body : Except String (List Property)) :
    JobResult :=
  match body with
  | .ok props =>
    { jobId := jobId, status := "completed", properties := props,
      propertyCount := props.length, error := none }
  | .error e =>
    { jobId := jobId, status := "failed", properties := [],
      propertyCount := 0, error := some e }

/-- The per-entry conversion of lines 336-344; the failed dict of lines
339-342 carries only status and error. -/
def processGatheredJob : Except String JobResult → JobResult
  | .ok r => r
  | .error e =>
    { jobId := "", status := "failed", properties := [],
      propertyCount := 0, error := some e }

/-- `run_multiple_jobs(jobs)` (lines 316-346): gather every job's
`run_scraping_job` — which is total, so every gathered entry is `.ok` —
then post-process the entries. -/
def runMultipleJobs (jobs : List (String × Except String (List Property))) :
    List JobResult :=
  (jobs.map fun job => Except.ok (runScrapingJob job.1 job.2)).map
    processGatheredJob

/-- C4: an exception in a job's run becomes a `'failed'` result carrying
the message, never a raise; `run_multiple_jobs` waits for all jobs and
returns one result per job in input order, job `i`'s entry being the result
of job `i` alone — one job's failure cannot lose or displace another's
entry. -/
theorem jobs_isolated (jobs : List (String × Except String (List Property))) :
    (runMultipleJobs jobs).length = jobs.length ∧
    (∀ i job, jobs.get? i = some job →
      (runMultipleJobs jobs).get? i = some (runScrapingJob job.1 job.2)) ∧
    (∀ jobId e, runScrapingJob jobId (.error e) =
      { jobId := jobId, status := "failed", properties := [],
        propertyCount := 0, error := some e }) := by
  refine ⟨by simp [runMultipleJobs], ?_, fun jobId e => rfl⟩
  intro i job hj
  simp only [runMultipleJobs, List.get?_map, hj]
  rfl

theorem jobs_isolated_witness :
    (runMultipleJobs [("a", .ok []), ("b", .error "boom")]).length = 2 ∧
    (runMultipleJobs [("a", .ok []), ("b", .error "boom")]).get? 1 =
      some (runScrapingJob "b" (.error "boom")) ∧
    runScrapingJob "b" (.error "boom") =
      { jobId := "b", status := "failed", properties := [],
        propertyCount := 0, error := some "boom" } := by
  have h := jobs_isolated [("a", .ok []), ("b", .error "boom")]
  exact ⟨h.1, h.2.1 1 ("b", .error "boom") rfl, h.2.2 "b" "boom"⟩

/-- `scrape_search_results(criteria, ...)` (lines 200-214) given the pages
its candidate URLs fetched: scrape the URLs, then apply the criteria
post-filter. -/
def scrapeSearchResults
    (parse : String → String → Except String (Option Property))
    (validate : Property → Bool × List String)
    (urls : List String) (pages : List (Option String))
    (criteria : SearchCriteria) : List Property :=
  filterProperties (scrapePropertyUrls parse validate urls pages).1 criteria

/-- C9: a job whose pages all fetch with truthy bodies but whose parse
returns no record for every page ends as a `'completed'` result with an
empty record list — not `'failed'` — and sibling jobs of the same
`run_multiple_jobs` call get exactly their own results. -/
theorem null_parse_job_completed
    (parse : String → String → Except String (Option Property))
    (validate : Property → Bool × List String)
    (urls : List String) (pages : List (Option String))
    (criteria : SearchCriteria) (jobId : String)
    (j1 j3 : String × Except String (List Property))
    (_hfetch : ∀ pg ∈ pages, pg ≠ none ∧ pg ≠ some "")
    (hnull : ∀ u c, parse u c = .ok none) :
    runScrapingJob jobId
        (.ok (scrapeSearchResults parse validate urls pages criteria)) =
      { jobId := jobId, status := "completed", properties := [],
        propertyCount := 0, error := none } ∧
    runMultipleJobs
        [j1,
         (jobId, .ok (scrapeSearchResults parse validate urls pages criteria)),
         j3] =
      [runScrapingJob j1.1 j1.2,
       runScrapingJob jobId
         (.ok (scrapeSearchResults parse validate urls pages criteria)),
       runScrapingJob j3.1 j3.2] := by
  have hrec : (scrapePropertyUrls parse validate urls pages).1 = [] := by
    have heq := foldl_scrapeStep parse validate (urls.zip pages) ([], [])
    simp only [List.nil_append] at heq
    rw [scrapePropertyUrls, heq]
    refine List.filterMap_eq_nil.2 ?_
    intro item hitem
    rcases item with ⟨url, pg⟩
    rcases pg with _ | c
    · rfl
    · by_cases hc : c = ""
      · simp [hc]
      · simp [hc, hnull]
  have hsearch : scrapeSearchResults parse validate urls pages criteria = [] := by
    rw [scrapeSearchResults, hrec]
    rfl
  constructor
  · rw [hsearch]
    rfl
  · rfl

theorem null_parse_job_completed_witness :
    runScrapingJob "job2"
        (.ok (scrapeSearchResults (fun _ _ => .ok none)
          (fun _ => (true, [])) ["a"] [some "x"] auditCriteria)) =
      { jobId := "job2", status := "completed", properties := [],
        propertyCount := 0, error := none } ∧
    runMultipleJobs
        [("job1", .ok [({} : Property)]),
         ("job2", .ok (scrapeSearchResults (fun _ _ => .ok none)
           (fun _ => (true, [])) ["a"] [some "x"] auditCriteria)),
         ("job3", .ok [])] =
      [runScrapingJob "job1" (.ok [({} : Property)]),
       runScrapingJob "job2"
         (.ok (scrapeSearchResults (fun _ _ => .ok none)
           (fun _ => (true, [])) ["a"] [some "x"] auditCriteria)),
       runScrapingJob "job3" (.ok [])] :=
  null_parse_job_completed (fun _ _ => .ok none) (fun _ => (true, []))
    ["a"] [some "x"] auditCriteria "job2"
    ("job1", .ok [({} : Property)]) ("job3", .ok [])
    (by decide) (fun _ _ => rfl)
